import Mathlib

/-!
Verification of the mocker HTTP mock-server core: wire-protocol message
buffers, routing dispatch, and the file-backed CRUD store.  Rust strings are
modelled as lists of characters (`Str`); the Rust standard string operations
used by the sources (`split`, `split_once`, `trim`, `lines`,
`eq_ignore_ascii_case`, numeric parse/format) are given executable models
below and the repository functions are translated on top of them.
-/

namespace Mocker

/-- A Rust `String`/`&str`, modelled as its list of characters. -/
abbrev Str := List Char

/-- ASCII lower-casing of one character, as done byte-wise by
`u8::eq_ignore_ascii_case`. -/
def asciiLower (c : Char) : Char :=
  if 'A' ≤ c ∧ c ≤ 'Z' then Char.ofNat (c.toNat + 32) else c

/-- ASCII upper-casing of one character (`char::to_uppercase` on ASCII). -/
def asciiUpper (c : Char) : Char :=
  if 'a' ≤ c ∧ c ≤ 'z' then Char.ofNat (c.toNat - 32) else c

/-- Rust `str::eq_ignore_ascii_case`. -/
def eqIgnoreAsciiCase (a b : Str) : Bool :=
  a.map asciiLower == b.map asciiLower

/-- Rust `str::split(sep)` for a one-character pattern: always returns at
least one (possibly empty) piece. -/
def splitAtChar (sep : Char) : Str → List Str
  | [] => [[]]
  | c :: rest =>
    if c = sep then [] :: splitAtChar sep rest
    else
      match splitAtChar sep rest with
      | [] => [[c]]
      | h :: t => (c :: h) :: t

/-- Rust `str::split_once(sep)`: the pieces before and after the first
occurrence of `sep`, or `none` when `sep` does not occur. -/
def splitOnceChar (sep : Char) : Str → Option (Str × Str)
  | [] => none
  | c :: rest =>
    if c = sep then some ([], rest)
    else (splitOnceChar sep rest).map (fun p => (c :: p.1, p.2))

/-- Whitespace as trimmed by Rust `str::trim` (the ASCII part; the sources
never produce non-ASCII whitespace). -/
def isTrimWhitespace (c : Char) : Bool :=
  c = ' ' ∨ c = '\t' ∨ c = '\n' ∨ c = '\r' ∨ c = '\x0b' ∨ c = '\x0c'

/-- Rust `str::trim`. -/
def trimStr (s : Str) : Str :=
  ((s.dropWhile isTrimWhitespace).reverse.dropWhile isTrimWhitespace).reverse

/-- Strip one trailing carriage return, as `str::lines` does per line. -/
def stripCR (l : Str) : Str :=
  if l.getLast? = some '\r' then l.dropLast else l

/-- Rust `str::lines`: split on newline, drop a final empty piece produced by
a trailing newline, strip one trailing carriage return from each line. -/
def rustLines (s : Str) : List Str :=
  let parts := splitAtChar '\n' s
  let parts := if parts.getLast? = some ([] : Str) then parts.dropLast else parts
  parts.map stripCR

/-- Fuel-driven digit emitter behind `natToStr`; any fuel above the value
itself is enough, and the fuel keeps the recursion structural. -/
def natToStrGo : Nat → Nat → Str
  | 0, _ => []
  | fuel + 1, n =>
    if n < 10 then [Nat.digitChar n]
    else natToStrGo fuel (n / 10) ++ [Nat.digitChar (n % 10)]

/-- Canonical decimal rendering of a natural number (Rust `Display` for the
unsigned integer types). -/
def natToStr (n : Nat) : Str := natToStrGo (n + 1) n

/-- Rust `i128`-style `Display`: minus sign then decimal digits. -/
def intToStr (i : Int) : Str :=
  if i < 0 then '-' :: natToStr i.natAbs else natToStr i.natAbs

/-- Numeric value of one decimal digit character. -/
def digitVal? (c : Char) : Option Nat :=
  if '0' ≤ c ∧ c ≤ '9' then some (c.toNat - 48) else none

/-- Fold a digit string into a number; `none` on any non-digit. -/
def parseDigits (s : Str) : Option Nat :=
  s.foldl (fun acc c => acc.bind fun a => (digitVal? c).map (fun d => a * 10 + d)) (some 0)

/-- Rust `"…".parse::<u16>()`: an optional `+` sign, one or more decimal
digits, value below `2^16`. -/
def parseU16 (s : Str) : Option Nat :=
  let t := match s with
    | '+' :: r => r
    | _ => s
  if t = [] then none
  else match parseDigits t with
    | some n => if n < 65536 then some n else none
    | none => none

/-- UTF-8 byte length of a string (Rust `str::len` / `Vec<u8>::len` for the
encoded body). -/
def utf8Len (s : Str) : Nat :=
  s.foldl (fun a c => a + c.utf8Size) 0

/-- `true` when none of the characters of `cs` occur in `s`. -/
def freeOf (cs : List Char) (s : Str) : Bool :=
  s.all (fun c => !(cs.contains c))

/-! ### Value (src/lib/value.rs)

The dynamic record-field type.  `i128`/`u128` are modelled as `Int`/`Nat`
(no arithmetic is ever performed on them, only display and comparison, so
the 128-bit range plays no role).  `f64` is modelled by its Rust decimal
rendering, the only thing the sources ever read from a float.  `Map` is a
`HashMap` in Rust; it is modelled as an association list, its iteration
order modelled by the list order. -/

inductive Value where
  | null
  | bool (b : Bool)
  | float (repr : Str)
  | integer (i : Int)
  | unsigned (n : Nat)
  | string (s : Str)
  | map (kvs : List (Str × Value))
  | array (vs : List Value)

mutual

/-- Structural equality of `Value` (the derived Rust `PartialEq`).  Rust
compares `Map`s as key-value sets; the model compares the association lists
pointwise, which agrees on all maps built in declaration order. -/
def Value.beq : Value → Value → Bool
  | .null, .null => true
  | .bool a, .bool b => a == b
  | .float a, .float b => a == b
  | .integer a, .integer b => a == b
  | .unsigned a, .unsigned b => a == b
  | .string a, .string b => a == b
  | .map a, .map b => beqKVs a b
  | .array a, .array b => beqValues a b
  | _, _ => false

def beqKVs : List (Str × Value) → List (Str × Value) → Bool
  | [], [] => true
  | kv1 :: r1, kv2 :: r2 => kv1.1 == kv2.1 && Value.beq kv1.2 kv2.2 && beqKVs r1 r2
  | _, _ => false

def beqValues : List Value → List Value → Bool
  | [], [] => true
  | a :: r1, b :: r2 => Value.beq a b && beqValues r1 r2
  | _, _ => false

end

/-- Rust `{:?}` escaping of a string: backslash-escape quotes, backslashes
and the common control characters. -/
def debugEscape (s : Str) : Str :=
  s.flatMap fun c =>
    if c = '"' then ['\\', '"']
    else if c = '\\' then ['\\', '\\']
    else if c = '\n' then ['\\', 'n']
    else if c = '\r' then ['\\', 'r']
    else if c = '\t' then ['\\', 't']
    else [c]

/-- Rust `{:?}` of a `String`: quoted and escaped. -/
def debugStr (s : Str) : Str :=
  '"' :: debugEscape s ++ ['"']

mutual

/-- The derived `Debug` rendering of a `Value` (`{:?}`), used by `Display`
for the `Map` and `Array` arms. -/
def Value.debugRepr : Value → Str
  | .null => "Null".data
  | .bool true => "Bool(true)".data
  | .bool false => "Bool(false)".data
  | .float r => "Float(".data ++ r ++ [')']
  | .integer i => "Integer(".data ++ intToStr i ++ [')']
  | .unsigned n => "Unsigned(".data ++ natToStr n ++ [')']
  | .string s => "String(".data ++ debugStr s ++ [')']
  | .map kvs => "Map(".data ++ debugKVs kvs ++ [')']
  | .array vs => "Array(".data ++ debugValues vs ++ [')']

/-- `{:?}` of a `HashMap<String, Value>` (iteration order = list order). -/
def debugKVs (kvs : List (Str × Value)) : Str :=
  '\x7b' :: debugKVsInner kvs ++ ['\x7d']

def debugKVsInner : List (Str × Value) → Str
  | [] => []
  | [(k, v)] => debugStr k ++ ':' :: ' ' :: Value.debugRepr v
  | (k, v) :: rest => debugStr k ++ ':' :: ' ' :: Value.debugRepr v ++ ',' :: ' ' :: debugKVsInner rest

/-- `{:?}` of a `Vec<Value>`. -/
def debugValues (vs : List Value) : Str :=
  '[' :: debugValuesInner vs ++ [']']

def debugValuesInner : List Value → Str
  | [] => []
  | [v] => Value.debugRepr v
  | v :: rest => Value.debugRepr v ++ ',' :: ' ' :: debugValuesInner rest

end

/-- The `Display` rendering of a `Value` (value.rs `impl Display`): scalars
render bare, strings render without quotes, maps and arrays render via their
`Debug` form. -/
def Value.display : Value → Str
  | .null => "null".data
  | .bool true => "true".data
  | .bool false => "false".data
  | .float r => r
  | .integer i => intToStr i
  | .unsigned n => natToStr n
  | .string s => s
  | .map kvs => debugKVs kvs
  | .array vs => debugValues vs

/-- `Value::loose_eq`: equality of the two textual (`Display`) renderings. -/
def looseEq (a b : Value) : Bool :=
  a.display == b.display

/-! ### Method, Version, Status (src/lib/http.rs) -/

inductive Method where
  | post | get | put | patch | delete | head | options
deriving DecidableEq

/-- The `EnumIter` declaration order of `Method`. -/
def Method.iterList : List Method :=
  [.post, .get, .put, .patch, .delete, .head, .options]

/-- `format!("{:?}", method)`: the derived `Debug` name. -/
def Method.debugName : Method → Str
  | .post => "Post".data
  | .get => "Get".data
  | .put => "Put".data
  | .patch => "Patch".data
  | .delete => "Delete".data
  | .head => "Head".data
  | .options => "Options".data

/-- `Method::repr`: the `Debug` name upper-cased. -/
def Method.repr (m : Method) : Str :=
  m.debugName.map asciiUpper

/-- `Method::from_str`: first declared method whose `Debug` name matches
case-insensitively. -/
def Method.fromStr (s : Str) : Option Method :=
  Method.iterList.find? (fun m => eqIgnoreAsciiCase (Method.debugName m) s)

inductive Version where
  | v1_0 | v1_1 | v2
deriving DecidableEq

/-- The `EnumIter` declaration order of `Version`. -/
def Version.iterList : List Version := [.v1_0, .v1_1, .v2]

/-- `Version::repr`. -/
def Version.repr : Version → Str
  | .v1_0 => "HTTP/1.0".data
  | .v1_1 => "HTTP/1.1".data
  | .v2 => "HTTP/2".data

/-- `Version::from_str`: first declared version whose textual form matches
case-insensitively. -/
def Version.fromStr (s : Str) : Option Version :=
  Version.iterList.find? (fun v => eqIgnoreAsciiCase (Version.repr v) s)

/-- The HTTP status table of http.rs, in `EnumIter` declaration order, as
(numeric code, canonical reason text) pairs.  The French detail strings are
never read by any embedded operation and are omitted. -/
def statusTable : List (Nat × Str) :=
  [ (100, "Continue".data), (101, "Switching Protocols".data), (102, "Processing".data),
    (103, "Early Hints".data),
    (200, "OK".data), (201, "Created".data), (202, "Accepted".data),
    (203, "Non-Authoritative Information".data), (204, "No Content".data),
    (205, "Reset Content".data), (206, "Partial Content".data), (207, "Multi-Status".data),
    (208, "Already Reported".data), (210, "Content Different".data), (226, "IM Used".data),
    (300, "Multiple Choices".data), (301, "Moved Permanently".data), (302, "Found".data),
    (303, "See Other".data), (304, "Not Modified".data),
    (305, "Use Proxy (depuis HTTP/1.1)".data), (306, "(inutilisé)".data),
    (307, "Temporary Redirect".data), (308, "Permanent Redirect".data),
    (310, "Too many Redirects".data),
    (400, "Bad Request".data), (401, "Unauthorized".data), (402, "Payment Required".data),
    (403, "Forbidden".data), (404, "Not Found".data), (405, "Method Not Allowed".data),
    (406, "Not Acceptable".data), (407, "Proxy Authentication Required".data),
    (408, "Request Time-out".data), (409, "Conflict".data), (410, "Gone".data),
    (411, "Length Required".data), (412, "Precondition Failed".data),
    (413, "Request Entity Too Large".data), (414, "Request-URI Too Long".data),
    (415, "Unsupported Media Type".data), (416, "Requested range unsatisfiable".data),
    (417, "Expectation failed".data), (418, "I’m a teapot".data), (419, "Page expired".data),
    (421, "Bad mapping / Misdirected Request".data), (422, "Unprocessable entity".data),
    (423, "Locked".data), (424, "Method failure".data), (425, "Too Early".data),
    (426, "Upgrade Required".data), (427, "Invalid digital signature".data),
    (428, "Precondition Required".data), (429, "Too Many Requests".data),
    (431, "Request Header Fields Too Large".data), (449, "Retry With".data),
    (450, "Blocked by Windows Parental Controls".data),
    (451, "Unavailable For Legal Reasons".data), (456, "Unrecoverable Error".data),
    (444, "No Response".data), (495, "SSL Certificate Error".data),
    (496, "SSL Certificate Required".data), (497, "HTTP Request Sent to HTTPS Port".data),
    (498, "Token expired/invalid".data), (499, "Client Closed Request".data),
    (500, "Internal Server Error".data), (501, "Not Implemented".data),
    (502, "Bad Gateway ou Proxy Error".data), (503, "Service Unavailable".data),
    (504, "Gateway Time-out".data), (505, "HTTP Version not supported".data),
    (506, "Variant Also Negotiates".data), (507, "Insufficient storage".data),
    (508, "Loop detected".data), (509, "Bandwidth Limit Exceeded".data),
    (510, "Not extended".data), (511, "Network authentication required".data),
    (520, "Unknown Error".data), (521, "Web Server Is Down".data),
    (522, "Connection Timed Out".data), (523, "Origin Is Unreachable".data),
    (524, "A Timeout Occurred".data), (525, "SSL Handshake Failed".data),
    (526, "Invalid SSL Certificate".data), (527, "Railgun Error".data) ]

/-- `Status::try_from(u16)` followed by `.text()`: the reason text of the
first declared status with the given code, `none` when the code is not in
the table. -/
def statusTextOfCode (code : Nat) : Option Str :=
  (statusTable.find? (fun e => e.1 == code)).map (·.2)

/-- Numeric codes of the statuses named by the store/router sources. -/
def statusBadRequest : Nat := 400
def statusConflict : Nat := 409
def statusInternalServerError : Nat := 500

/-! ### Start lines and message buffers (src/lib/http.rs) -/

/-- `RequestStart`: method, target, version. -/
structure RequestStart where
  method : Method
  target : Str
  version : Version
deriving DecidableEq

/-- `ResponseStart`: version, numeric status (`u16`, hence below `2^16` in
every value the code can build), optional reason phrase. -/
structure ResponseStart where
  version : Version
  status : Nat
  reason : Option Str
deriving DecidableEq

inductive StartLine where
  | request (r : RequestStart)
  | response (r : ResponseStart)
deriving DecidableEq

/-- `StartLine::response`: when no reason is supplied, fill in the canonical
reason text of the status code from the status table, if the code is
recognized. -/
def StartLine.mkResponse (v : Version) (status : Nat) (reason : Option Str) : StartLine :=
  .response ⟨v, status, reason.orElse (fun _ => statusTextOfCode status)⟩

/-- The `Display` rendering of a start line. -/
def StartLine.display : StartLine → Str
  | .request r => r.method.repr ++ ' ' :: r.target ++ ' ' :: r.version.repr
  | .response r =>
    r.version.repr ++ ' ' :: natToStr r.status ++
      (match r.reason with
       | some s => ' ' :: s
       | none => [])

/-- `true` when the token starts with `HTTP` (response start-line
detection). -/
def startsWithHTTP (s : Str) : Bool :=
  List.isPrefixOf "HTTP".data s

/-- `StartLine::from_str`: split on single spaces; fewer than two tokens
fails; a first token starting with `HTTP` parses as a response start line
(version, numeric status, a single optional reason token), anything else as
a request line (method, target, required version). -/
def StartLine.parse (s : Str) : Option StartLine :=
  match splitAtChar ' ' s with
  | p0 :: p1 :: rest =>
    if startsWithHTTP p0 then
      (Version.fromStr p0).bind fun v =>
        (parseU16 p1).map fun st =>
          StartLine.mkResponse v st rest.head?
    else
      (Method.fromStr p0).bind fun m =>
        rest.head?.bind fun p2 =>
          (Version.fromStr p2).map fun ver =>
            StartLine.request ⟨m, p1, ver⟩
  | _ => none

/-- `Buffer`: start line, ordered header list, body.  The Rust body is a
`Vec<u8>`; every body the sources construct comes from a `&str`, so it is
modelled as text. -/
structure Buffer where
  startLine : StartLine
  headers : List (Str × Str)
  body : Str
deriving DecidableEq

/-- The header-name key of `Content-Length`. -/
def contentLengthKey : Str := "Content-Length".data

/-- The header-list update of `Buffer::set_header`: overwrite the value of
the first case-insensitive name match in place (keeping the stored name's
casing), or append a new entry. -/
def setHeaderList (k v : Str) : List (Str × Str) → List (Str × Str)
  | [] => [(k, v)]
  | (hk, hv) :: rest =>
    if eqIgnoreAsciiCase hk k then (hk, v) :: rest
    else (hk, hv) :: setHeaderList k v rest

/-- `Buffer::set_header`. -/
def Buffer.setHeader (b : Buffer) (k v : Str) : Buffer :=
  { b with headers := setHeaderList k v b.headers }

/-- `Buffer::header`: value of the first case-insensitive name match. -/
def Buffer.header (b : Buffer) (k : Str) : Option Str :=
  (b.headers.find? (fun h => eqIgnoreAsciiCase h.1 k)).map (·.2)

/-- Number of header entries whose name matches `k` case-insensitively. -/
def countMatches (k : Str) (hs : List (Str × Str)) : Nat :=
  (hs.filter (fun p => eqIgnoreAsciiCase p.1 k)).length

/-- `Buffer::with_start_line`. -/
def Buffer.withStartLine (b : Buffer) (sl : StartLine) : Buffer :=
  { b with startLine := sl }

/-- `Buffer::with_headers`: replace the header list wholesale. -/
def Buffer.withHeaders (b : Buffer) (hs : List (Str × Str)) : Buffer :=
  { b with headers := hs }

/-- `Buffer::with_header`: push one entry (no case-insensitive dedup). -/
def Buffer.withHeader (b : Buffer) (k v : Str) : Buffer :=
  { b with headers := b.headers ++ [(k, v)] }

/-- `Buffer::append_body`: extend the body and recompute `Content-Length`
to the new byte length. -/
def Buffer.appendBody (b : Buffer) (v : Str) : Buffer :=
  let b2 : Buffer := { b with body := b.body ++ v }
  b2.setHeader contentLengthKey (natToStr (utf8Len b2.body))

/-- `Buffer::with_body`: clear then append. -/
def Buffer.withBody (b : Buffer) (v : Str) : Buffer :=
  Buffer.appendBody { b with body := [] } v

/-- `Buffer::default`: response start line `HTTP/1.1 200` (reason filled to
`OK` by `StartLine::response`), no headers, empty body. -/
def Buffer.default : Buffer :=
  ⟨StartLine.mkResponse .v1_1 200 none, [], []⟩

/-- `Buffer::write_to`: start line, `name: value` header lines, then — only
when the body is non-empty — a blank line and the raw body bytes. -/
def Buffer.writeTo (b : Buffer) : Str :=
  b.startLine.display ++ '\n' ::
    ((b.headers.map (fun h => h.1 ++ ':' :: ' ' :: h.2 ++ ['\n'])).flatten ++
      (if b.body = [] then [] else '\n' :: b.body))

/-- The non-empty lines strictly after the first blank line (once the parse
loop of `impl FromStr for Buffer` is in body mode, empty lines only re-set
the mode flag and are dropped). -/
def bodyLinesOf : List Str → List Str
  | [] => []
  | l :: rest => if l = [] then bodyLinesOf rest else l :: bodyLinesOf rest

/-- The header/body line split of the parse loop: lines before the first
blank line are headers, non-empty lines after it are body lines. -/
def collectSections : List Str → List Str × List Str
  | [] => ([], [])
  | l :: rest =>
    if l = [] then ([], bodyLinesOf rest)
    else
      let p := collectSections rest
      (l :: p.1, p.2)

/-- One header line: split on the first colon (failure without one), trim
the value. -/
def parseHeaderLine (l : Str) : Option (Str × Str) :=
  (splitOnceChar ':' l).map fun p => (p.1, trimStr p.2)

/-- All header lines, failing if any lacks a colon. -/
def parseHeaderLines : List Str → Option (List (Str × Str))
  | [] => some []
  | l :: rest =>
    (parseHeaderLine l).bind fun h =>
      (parseHeaderLines rest).map fun hs => h :: hs

/-- `impl FromStr for Buffer`: first line is the start line, lines before
the first blank line are headers, the remaining non-empty lines re-joined
with newline are the body; the result is assembled on `Buffer::default` via
`with_start_line`, `with_headers`, `with_body`. -/
def Buffer.parse (s : Str) : Option Buffer :=
  match rustLines s with
  | [] => none
  | sl :: rest =>
    (StartLine.parse sl).bind fun startLine =>
      let p := collectSections rest
      (parseHeaderLines p.1).map fun hs =>
        ((Buffer.default.withStartLine startLine).withHeaders hs).withBody
          (List.intercalate ['\n'] p.2)

/-- Status code of a buffer whose start line is a response line. -/
def Buffer.status? (b : Buffer) : Option Nat :=
  match b.startLine with
  | .response r => some r.status
  | .request _ => none

/-! ### Validity for the serialize/parse round trip (spec §8)

Text-safety of a buffer, spelling out exactly which buffers survive the
wire format: one-line tokens without embedded separators, a `Content-Length`
header consistent with the body, a reason phrase that is a single token (or
absent with an unrecognized code, since parsing fills canonical reasons
back in), and a body without blank lines, leading/trailing newlines or
carriage returns. -/

/-- Text-safety of a start line. -/
def validStartLine : StartLine → Bool
  | .request r => freeOf [' ', '\n', '\r'] r.target
  | .response r =>
    decide (r.status < 65536) &&
      (match r.reason with
       | some s => freeOf [' ', '\n', '\r'] s
       | none => (statusTextOfCode r.status).isNone)

/-- Text-safety of one header entry: no newline or carriage return on
either side, no colon in the name, a value already trimmed. -/
def validHeaderPair (h : Str × Str) : Bool :=
  freeOf ['\n', '\r', ':'] h.1 && freeOf ['\n', '\r'] h.2 && trimStr h.2 == h.2

/-- Text-safety of a body: no carriage return, and (unless empty) no blank
line, so no leading, trailing or doubled newline. -/
def validBody (body : Str) : Bool :=
  freeOf ['\r'] body && (body == [] || (splitAtChar '\n' body).all (fun l => l ≠ []))

/-- A valid `Buffer` with a text-safe body: text-safe start line, headers
and body, and a `Content-Length` header (first case-insensitive match)
already equal to the body's byte length — parsing always recomputes that
header, so a buffer without it cannot round-trip. -/
def validBuffer (b : Buffer) : Bool :=
  validStartLine b.startLine &&
    b.headers.all validHeaderPair &&
    b.header contentLengthKey == some (natToStr (utf8Len b.body)) &&
    validBody b.body

/-! ### Request accessors (src/lib/request.rs) -/

/-- `Request::path`: the piece of the target before the first `?` — and
`None` when the target has no `?` at all (the `split_once` miss arm
returns `None`, not the full target). -/
def requestPath (target : Str) : Option Str :=
  (splitOnceChar '?' target).map (·.1)

/-- `Request::query`: the piece of the target after the first `?`. -/
def requestQuery (target : Str) : Option Str :=
  (splitOnceChar '?' target).map (·.2)

/-- `Request::query_params`: the query split on `&`, each piece split on the
first `=` into a key and an optional value. -/
def queryParams (target : Str) : List (Str × Option Str) :=
  match requestQuery target with
  | none => []
  | some q =>
    (splitAtChar '&' q).map fun p =>
      match splitOnceChar '=' p with
      | some kv => (kv.1, some kv.2)
      | none => (p, none)

/-- `Request::query_param`: first query parameter whose key matches
case-insensitively. -/
def queryParam (target : Str) (k : Str) : Option (Str × Option Str) :=
  (queryParams target).find? fun p => eqIgnoreAsciiCase p.1 k

/-- `Request::method`: the method of a request start line, `None` on a
response start line. -/
def requestMethod (b : Buffer) : Option Method :=
  match b.startLine with
  | .request r => some r.method
  | .response _ => none

/-! ### Errors and the error → response conversion
(src/lib/error.rs, src/lib/response.rs) -/

/-- `ErrorKind`.  `Api` carries a `Status`; statuses are identified by their
numeric codes (`Status::code`), with reason texts supplied by
`statusTable`. -/
inductive ErrorKindM where
  | io
  | sync
  | parse
  | api (status : Nat)
  | unknown
deriving DecidableEq

/-- `Error`: kind and optional message.  The optional `cause` is an opaque
chained `dyn Error` that no embedded operation ever reads; it is omitted. -/
structure ErrorM where
  kind : ErrorKindM
  message : Option Str
deriving DecidableEq

/-- `Response::with_status_code` (also modelling `with_status(n)` at the
call sites that pass a numeric literal): set the status code on the
response start line and fill the reason from the status table, clearing it
when the code is unrecognized. -/
def Buffer.withStatusCode (b : Buffer) (code : Nat) : Buffer :=
  match b.startLine with
  | .response r => { b with startLine := .response ⟨r.version, code, statusTextOfCode code⟩ }
  | .request _ => b

/-- `impl From<Error> for Response`: an `Api` error renders its carried
status, every other kind renders 500; the message, when present, becomes
the body. -/
def responseFromError (e : ErrorM) : Buffer :=
  let status : Nat :=
    match e.kind with
    | .api s => s
    | _ => statusInternalServerError
  let res := Buffer.default.withStatusCode status
  match e.message with
  | some msg => res.withBody msg
  | none => res

/-! ### Store (src/lib/store.rs)

A record is a `HashMap<String, Value>`, modelled as an association list
whose order stands for the map's iteration order.  `load`/`save` perform
file I/O; the store's record list is therefore passed explicitly: every
operation takes the loaded `items` and returns the new list where the Rust
method mutates `self.items`. -/

/-- A store record. -/
abbrev Record := List (Str × Value)

/-- `Store::id_field`: first field whose name matches the identifier field
name case-insensitively. -/
def idField (identifier : Str) (obj : Record) : Option (Str × Value) :=
  obj.find? fun kv => eqIgnoreAsciiCase kv.1 identifier

/-- `Store::find`: first record whose identifier field is loosely equal to
the probe value. -/
def storeFind (identifier : Str) (items : List Record) (id : Value) : Option Record :=
  items.find? fun item =>
    match idField identifier item with
    | some kv => looseEq kv.2 id
    | none => false

/-- The 400 error of `Store::create` for a record without the identifier
field. -/
def missingIdError (identifier : Str) : ErrorM :=
  ⟨.api statusBadRequest, some ("missing `".data ++ identifier ++ "` field in object".data)⟩

/-- The 409 error of `Store::create` for a duplicate identifier. -/
def conflictError (identifier : Str) (idVal : Value) : ErrorM :=
  ⟨.api statusConflict,
    some ("entity with `".data ++ identifier ++ "`=".data ++ idVal.display ++
      " already exists".data)⟩

/-- `Store::create`: reject a record without the identifier field with a 400
API error; reject a loosely-equal duplicate identifier with a 409 Conflict;
otherwise append.  Returns the result together with the record list after
the call (unchanged on error, mirroring `&mut self`). -/
def storeCreate (identifier : Str) (items : List Record) (obj : Record) :
    Except ErrorM Nat × List Record :=
  match idField identifier obj with
  | none => (.error (missingIdError identifier), items)
  | some kv =>
    match storeFind identifier items kv.2 with
    | some _ => (.error (conflictError identifier kv.2), items)
    | none => (.ok items.length, items ++ [obj])

/-- Remove the first record satisfying the predicate, returning it and the
remaining list (`Vec::remove` after an indexed `find`). -/
def removeFirst (p : Record → Bool) : List Record → Option Record × List Record
  | [] => (none, [])
  | r :: rest =>
    if p r then (some r, rest)
    else
      let q := removeFirst p rest
      (q.1, r :: q.2)

/-- The match test of `Store::remove`: the record's identifier field equals
the probe under structural `Value` equality (`==`), not loose equality. -/
def structIdMatch (identifier : Str) (id : Value) (r : Record) : Bool :=
  match idField identifier r with
  | some kv => Value.beq kv.2 id
  | none => false

/-- `Store::remove`: remove and return the first record whose identifier
field structurally equals the probe; `none` (list unchanged) otherwise. -/
def storeRemove (identifier : Str) (items : List Record) (id : Value) :
    Option Record × List Record :=
  removeFirst (structIdMatch identifier id) items

/-- Identifier value of a record, when the identifier field is present. -/
def recId? (identifier : Str) (r : Record) : Option Value :=
  (idField identifier r).map (·.2)

/-- The store invariant of spec §3: no two records carry loosely-equal
identifier values. -/
def UniqueIds (identifier : Str) (items : List Record) : Prop :=
  items.Pairwise fun a b =>
    ∀ va vb, recId? identifier a = some va → recId? identifier b = some vb →
      looseEq va vb = false

/-! ### JSON rendering of records (`serde_json::to_string`), used for the
payload of a successful GET. -/

/-- JSON string escaping (the cases `serde_json` escapes that the embedded
values can contain). -/
def jsonEscape (s : Str) : Str :=
  s.flatMap fun c =>
    if c = '"' then ['\\', '"']
    else if c = '\\' then ['\\', '\\']
    else if c = '\n' then ['\\', 'n']
    else if c = '\r' then ['\\', 'r']
    else if c = '\t' then ['\\', 't']
    else [c]

mutual

/-- Compact JSON rendering of a `Value` (models `serde_json::to_string` on
the store's record values). -/
def Value.toJson : Value → Str
  | .null => "null".data
  | .bool true => "true".data
  | .bool false => "false".data
  | .float r => r
  | .integer i => intToStr i
  | .unsigned n => natToStr n
  | .string s => '"' :: jsonEscape s ++ ['"']
  | .map kvs => '\x7b' :: jsonKVs kvs ++ ['\x7d']
  | .array vs => '[' :: jsonValues vs ++ [']']

def jsonKVs : List (Str × Value) → Str
  | [] => []
  | [(k, v)] => '"' :: jsonEscape k ++ '"' :: ':' :: Value.toJson v
  | (k, v) :: rest => '"' :: jsonEscape k ++ '"' :: ':' :: Value.toJson v ++ ',' :: jsonKVs rest

def jsonValues : List Value → Str
  | [] => []
  | [v] => Value.toJson v
  | v :: rest => Value.toJson v ++ ',' :: jsonValues rest

end

/-- Compact JSON rendering of a record map (`serde_json::to_string(obj)`). -/
def jsonRecord (r : Record) : Str :=
  '\x7b' :: jsonKVs r ++ ['\x7d']

/-! ### Store-backed CRUD handler (src/lib/router.rs)

`load_entity`/`create_entity` lock the store, reload it from disk and (for
POST) persist it back; the loaded record list is passed in as `items` and
the persisted list is returned.  The POST body's JSON decoding is performed
by `serde_json`; the decoded record is passed in as `decoded` (`none`
standing for a deserialization failure). -/

/-- The 400 body of a GET whose identifier key is absent. -/
def msgKeyAbsent (identifier : Str) : Str :=
  "Identifier '".data ++ identifier ++ "' not found in query params".data

/-- The 400 body of a GET whose identifier key is present but valueless. -/
def msgKeyNoValue (identifier : Str) : Str :=
  "Identifier '".data ++ identifier ++ "' was found in query params but has no value".data

/-- The 404 body of a GET with an unmatched identifier value. -/
def msgNotFound (idKey : Str) (idValue : Str) : Str :=
  "Entity with `".data ++ idKey ++ "` = ".data ++ debugStr idValue ++ " was not found".data

/-- `StoreRouteHandler::load_entity` given the loaded record list and the
request target: 400 (key absent), distinct 400 (key valueless), 200 with
the serialized record on a loose identifier match, else 404. -/
def loadEntity (identifier : Str) (items : List Record) (target : Str) : Buffer :=
  match queryParam target identifier with
  | some (key, some v) =>
    match storeFind identifier items (.string v) with
    | some obj =>
      ((Buffer.default.withStatusCode 200).withHeader "Content-Type".data
        "application/json".data).withBody (jsonRecord obj)
    | none => (Buffer.default.withStatusCode 404).withBody (msgNotFound key v)
  | some (_, none) => (Buffer.default.withStatusCode 400).withBody (msgKeyNoValue identifier)
  | none => (Buffer.default.withStatusCode 400).withBody (msgKeyAbsent identifier)

/-- `StoreRouteHandler::create_entity` after the body has been decoded into
`newData`: the response body is the displayed identifier value (`"-1"` when
the field is absent — though `Store::create` then rejects the record);
on success the appended record list is persisted. -/
def createEntity (identifier : Str) (items : List Record) (newData : Record) :
    Except ErrorM Buffer × List Record :=
  let idStr : Str :=
    match idField identifier newData with
    | some kv => kv.2.display
    | none => "-1".data
  match storeCreate identifier items newData with
  | (.error e, items') => (.error e, items')
  | (.ok _, items') =>
    (.ok (((Buffer.default.withStatusCode 201).withHeader "Content-Type".data
      "application/json".data).withBody idStr), items')

/-- Outcome of `StoreRouteHandler::handle`: a response (with the record
list as persisted), a propagated error, or a thread panic (`todo!` /
`expect`). -/
inductive HandlerOutcome where
  | ok (resp : Buffer) (items : List Record)
  | error (e : ErrorM)
  | panics (msg : Str)

/-- `StoreRouteHandler::handle`: GET and POST delegate to
`load_entity`/`create_entity`; PUT, PATCH and DELETE execute `todo!()`,
which panics the serving thread; HEAD and OPTIONS return an `Unknown`
error; a missing method (response start line) panics in
`.expect("Missing method")`. -/
def storeRouteHandle (identifier : Str) (items : List Record) (req : Buffer)
    (decoded : Option Record) : HandlerOutcome :=
  match req.startLine with
  | .response _ => .panics "Missing method".data
  | .request rs =>
    match rs.method with
    | .get => .ok (loadEntity identifier items rs.target) items
    | .post =>
      match decoded with
      | none => .error ⟨.parse, some "failed to deserialize request body".data⟩
      | some newData =>
        match createEntity identifier items newData with
        | (.ok resp, items') => .ok resp items'
        | (.error e, _) => .error e
    | .put => .panics "not yet implemented: StoreRouteHandler PUT method".data
    | .patch => .panics "not yet implemented: StoreRouteHandler PATCH method".data
    | .delete => .panics "not yet implemented: StoreRouteHandler DELETE method".data
    | .head => .error ⟨.unknown, some "unsupported method: Head".data⟩
    | .options => .error ⟨.unknown, some "unsupported method: Options".data⟩

/-! ### Router (src/lib/router.rs) -/

/-- A route handler (`dyn RouteHandler`): a function from the request and
the seed response to a result. -/
def Handler := Buffer → Buffer → Except ErrorM Buffer

/-- The routing table: endpoint → (method → handler).  Both Rust maps are
`HashMap`s probed by exact key equality; they are modelled as association
lists with unique keys maintained by insert-or-update. -/
def Router := List (Str × List (Method × Handler))

/-- `HashMap::insert` on the per-endpoint method map: update the existing
entry or append. -/
def insertMeth (m : Method) (h : Handler) : List (Method × Handler) → List (Method × Handler)
  | [] => [(m, h)]
  | (m0, h0) :: rest =>
    if m0 = m then (m0, h) :: rest
    else (m0, h0) :: insertMeth m h rest

/-- Insert a handler for every method of the set into a method map. -/
def insertMethods (methods : List Method) (h : Handler) (l : List (Method × Handler)) :
    List (Method × Handler) :=
  methods.foldl (fun acc m => insertMeth m h acc) l

/-- The `entry(endpoint).or_insert_with(HashMap::new)` update of
`Router::set`: modify the endpoint's method map in place, creating it
when absent. -/
def routerSetList (endpoint : Str) (methods : List Method) (h : Handler) :
    Router → Router
  | [] => [(endpoint, insertMethods methods h [])]
  | (e0, ms0) :: rest =>
    if e0 = endpoint then (e0, insertMethods methods h ms0) :: rest
    else (e0, ms0) :: routerSetList endpoint methods h rest

/-- `Router::set`: one handler reference installed for each method of the
set at that endpoint, overwriting any prior handler for the same
(endpoint, method) pair. -/
def routerSet (r : Router) (methods : List Method) (endpoint : Str) (h : Handler) : Router :=
  routerSetList endpoint methods h r

/-- The method-map lookup of `Router::handler` (exact method match via the
discriminant comparison `method as u8 == *m as u8`). -/
def methodLookup (m : Method) (l : List (Method × Handler)) : Option Handler :=
  (l.find? (fun mh => mh.1 = m)).map (·.2)

/-- `Router::handler`: exact, case-sensitive endpoint match, then exact
method match. -/
def routerHandler (r : Router) (m : Method) (endpoint : Str) : Option Handler :=
  (r.find? (fun e => e.1 == endpoint)).bind fun e => methodLookup m e.2

/-- The endpoint string `Router::dispatch` looks up:
`req.path().unwrap_or("/")`. -/
def dispatchEndpoint (rs : RequestStart) : Str :=
  (requestPath rs.target).getD "/".data

/-- `Router::dispatch`: look up the handler for the request's
`path().unwrap_or("/")` and method; 404 with no body on a miss, the
handler's result on a hit.  `path()` unwraps the request start line, so a
buffer with a response start line panics — modelled by the outer `none`. -/
def routerDispatch (r : Router) (req : Buffer) (res : Buffer) :
    Option (Except ErrorM Buffer) :=
  match req.startLine with
  | .response _ => none
  | .request rs =>
    some
      (match routerHandler r rs.method (dispatchEndpoint rs) with
       | some h => h req res
       | none => .ok (Buffer.default.withStatusCode 404))

/-- The response of spec §8 Scenario A: version 1.0, status 200, reason
`OK`, a `Content-Type` header, body `test` (and the `Content-Length: 4`
header that `with_body` maintains). -/
def scenarioABuffer : Buffer :=
  ⟨StartLine.mkResponse .v1_0 200 (some "OK".data),
    [("Content-Type".data, "application/json".data),
     ("Content-Length".data, "4".data)],
    "test".data⟩

/-! ## Lemmas about the string models -/

theorem splitAtChar_ne_nil (sep : Char) (s : Str) : splitAtChar sep s ≠ [] := by
  induction s with
  | nil => simp [splitAtChar]
  | cons c rest ih =>
    simp only [splitAtChar]
    split
    · simp
    · cases h : splitAtChar sep rest <;> simp

theorem splitAtChar_no_sep {sep : Char} {s : Str} (h : ∀ x ∈ s, x ≠ sep) :
    splitAtChar sep s = [s] := by
  induction s with
  | nil => simp [splitAtChar]
  | cons c rest ih =>
    have hc : c ≠ sep := h c (by simp)
    have ihr := ih (fun x hx => h x (by simp [hx]))
    simp [splitAtChar, hc, ihr]

theorem splitAtChar_append {sep : Char} {A : Str} (B : Str) (h : ∀ x ∈ A, x ≠ sep) :
    splitAtChar sep (A ++ sep :: B) = A :: splitAtChar sep B := by
  induction A with
  | nil => simp [splitAtChar]
  | cons c rest ih =>
    have hc : c ≠ sep := h c (by simp)
    have ihr := ih (fun x hx => h x (by simp [hx]))
    simp only [List.cons_append, splitAtChar, hc, if_neg, ihr]
    have hne := splitAtChar_ne_nil sep B
    cases hB : splitAtChar sep B with
    | nil => exact absurd hB hne
    | cons hd tl => simp [hB] at ihr ⊢; simp [ihr]

theorem intercalate_splitAtChar (sep : Char) (s : Str) :
    List.intercalate [sep] (splitAtChar sep s) = s := by
  induction s with
  | nil => simp [splitAtChar, List.intercalate]
  | cons c rest ih =>
    simp only [splitAtChar]
    split
    · rename_i hc
      subst hc
      cases hr : splitAtChar c rest with
      | nil => exact absurd hr (splitAtChar_ne_nil c rest)
      | cons hd tl =>
        rw [hr] at ih
        simp only [List.intercalate] at ih ⊢
        simp [List.intersperse, ih]
    · cases hr : splitAtChar sep rest with
      | nil => exact absurd hr (splitAtChar_ne_nil sep rest)
      | cons hd tl =>
        rw [hr] at ih
        simp only [List.intercalate] at ih ⊢
        cases tl with
        | nil => simp at ih ⊢; simp [ih]
        | cons t ts =>
          simp only [List.intersperse] at ih ⊢
          simp at ih ⊢
          simp [ih]

theorem splitOnceChar_no_sep {sep : Char} {s : Str} (h : ∀ x ∈ s, x ≠ sep) :
    splitOnceChar sep s = none := by
  induction s with
  | nil => rfl
  | cons c rest ih =>
    have hc : c ≠ sep := h c (by simp)
    have ihr := ih (fun x hx => h x (by simp [hx]))
    simp [splitOnceChar, hc, ihr]

theorem splitOnceChar_append {sep : Char} {A : Str} (B : Str) (h : ∀ x ∈ A, x ≠ sep) :
    splitOnceChar sep (A ++ sep :: B) = some (A, B) := by
  induction A with
  | nil => simp [splitOnceChar]
  | cons c rest ih =>
    have hc : c ≠ sep := h c (by simp)
    have ihr := ih (fun x hx => h x (by simp [hx]))
    simp [splitOnceChar, hc, ihr]

theorem freeOf_forall {cs : List Char} {s : Str} (h : freeOf cs s = true) :
    ∀ x ∈ s, x ∉ cs := by
  intro x hx
  simp only [freeOf, List.all_eq_true] at h
  have := h x hx
  simpa using this

theorem freeOf_ne {cs : List Char} {s : Str} (h : freeOf cs s = true)
    {c : Char} (hc : c ∈ cs) : ∀ x ∈ s, x ≠ c := by
  intro x hx he
  exact (freeOf_forall h x hx) (he ▸ hc)

theorem forall_freeOf {cs : List Char} {s : Str} (h : ∀ x ∈ s, x ∉ cs) :
    freeOf cs s = true := by
  simp only [freeOf, List.all_eq_true]
  intro x hx
  simpa using h x hx

theorem freeOf_append (cs : List Char) (a b : Str) :
    freeOf cs (a ++ b) = (freeOf cs a && freeOf cs b) := by
  simp [freeOf]

theorem freeOf_cons (cs : List Char) (x : Char) (s : Str) :
    freeOf cs (x :: s) = (!(cs.contains x) && freeOf cs s) := by
  simp [freeOf]

theorem freeOf_weaken {cs cs' : List Char} {s : Str} (sub : ∀ c ∈ cs', c ∈ cs)
    (h : freeOf cs s = true) : freeOf cs' s = true :=
  forall_freeOf fun x hx hmem => freeOf_forall h x hx (sub x hmem)

theorem trimStr_cons_space {v : Str} (h : trimStr v = v) : trimStr (' ' :: v) = v := by
  have : trimStr (' ' :: v) = trimStr v := by
    simp [trimStr, List.dropWhile, isTrimWhitespace]
  rw [this, h]

theorem stripCR_free {l : Str} (h : ∀ x ∈ l, x ≠ '\r') : stripCR l = l := by
  unfold stripCR
  split
  · rename_i hl
    have := List.mem_of_mem_getLast? hl
    exact absurd rfl (h _ this)
  · rfl

/-! ## Lemmas about decimal rendering and parsing -/

theorem natToStrGo_succ (fuel n : Nat) :
    natToStrGo (fuel + 1) n =
      if n < 10 then [Nat.digitChar n]
      else natToStrGo fuel (n / 10) ++ [Nat.digitChar (n % 10)] := rfl

theorem natToStrGo_extra (f1 f2 : Nat) {n : Nat} (h1 : n < f1) (h2 : n < f2) :
    natToStrGo f1 n = natToStrGo f2 n := by
  induction n using Nat.strong_induction_on generalizing f1 f2 with
  | _ n ih =>
    cases f1 with
    | zero => omega
    | succ g1 =>
      cases f2 with
      | zero => omega
      | succ g2 =>
        rw [natToStrGo_succ, natToStrGo_succ]
        by_cases h : n < 10
        · rw [if_pos h, if_pos h]
        · rw [if_neg h, if_neg h,
            ih (n / 10) (Nat.div_lt_self (by omega) (by omega)) g1 g2
              (show n / 10 < g1 by omega) (show n / 10 < g2 by omega)]

theorem natToStr_lt10 {n : Nat} (h : n < 10) : natToStr n = [Nat.digitChar n] := by
  simp [natToStr, natToStrGo, h]

theorem natToStr_ge10 {n : Nat} (h : ¬ n < 10) :
    natToStr n = natToStr (n / 10) ++ [Nat.digitChar (n % 10)] := by
  rw [natToStr, natToStrGo_succ, if_neg h,
    natToStrGo_extra n (n / 10 + 1) (by omega) (by omega)]
  rfl

theorem natToStr_ne_nil (n : Nat) : natToStr n ≠ [] := by
  by_cases h : n < 10
  · simp [natToStr_lt10 h]
  · simp [natToStr_ge10 h]

theorem digitChar_range {d : Nat} (h : d < 10) :
    '0' ≤ Nat.digitChar d ∧ Nat.digitChar d ≤ '9' := by
  interval_cases d <;> decide

theorem natToStr_digits (n : Nat) : ∀ c ∈ natToStr n, '0' ≤ c ∧ c ≤ '9' := by
  induction n using Nat.strong_induction_on with
  | _ n ih =>
    by_cases h : n < 10
    · rw [natToStr_lt10 h]
      intro c hc
      simp at hc
      subst hc
      exact digitChar_range h
    · rw [natToStr_ge10 h]
      intro c hc
      simp at hc
      rcases hc with hc | hc
      · exact ih (n / 10) (Nat.div_lt_self (by omega) (by omega)) c hc
      · subst hc
        exact digitChar_range (Nat.mod_lt _ (by omega))

theorem digit_ne {c x : Char} (h : '0' ≤ c ∧ c ≤ '9') (hx : x < '0' ∨ '9' < x) : c ≠ x := by
  intro he
  subst he
  rcases hx with hx | hx
  · exact absurd (lt_of_le_of_lt h.1 hx) (lt_irrefl _)
  · exact absurd (lt_of_lt_of_le hx h.2) (lt_irrefl _)

theorem digitVal?_digitChar {d : Nat} (h : d < 10) :
    digitVal? (Nat.digitChar d) = some d := by
  interval_cases d <;> decide

theorem parseDigits_append (A : Str) (c : Char) {a d : Nat}
    (hA : parseDigits A = some a) (hc : digitVal? c = some d) :
    parseDigits (A ++ [c]) = some (a * 10 + d) := by
  simp only [parseDigits] at hA ⊢
  rw [List.foldl_append, hA]
  simp [Option.bind, hc]

theorem parseDigits_natToStr (n : Nat) : parseDigits (natToStr n) = some n := by
  induction n using Nat.strong_induction_on with
  | _ n ih =>
    by_cases h : n < 10
    · rw [natToStr_lt10 h]
      simp only [parseDigits, List.foldl]
      simp [Option.bind, digitVal?_digitChar h]
    · rw [natToStr_ge10 h]
      have hrec := ih (n / 10) (Nat.div_lt_self (by omega) (by omega))
      have hmod : n % 10 < 10 := Nat.mod_lt _ (by omega)
      have := parseDigits_append (natToStr (n / 10)) (Nat.digitChar (n % 10))
        hrec (digitVal?_digitChar hmod)
      rw [this]
      congr 1
      omega

theorem parseU16_natToStr {n : Nat} (h : n < 65536) : parseU16 (natToStr n) = some n := by
  have hdig := natToStr_digits n
  have hplus : (match natToStr n with
      | '+' :: r => r
      | _ => natToStr n) = natToStr n := by
    split
    · rename_i r heq
      exfalso
      have hmem : '+' ∈ natToStr n := by rw [heq]; simp
      exact absurd (hdig '+' hmem) (by decide)
    · rfl
  simp only [parseU16]
  rw [hplus]
  simp [natToStr_ne_nil n, parseDigits_natToStr n, h]

/-! ## Start-line round trip -/

theorem method_fromStr_repr (m : Method) : Method.fromStr (Method.repr m) = some m := by
  cases m <;> rfl

theorem method_repr_freeOf (m : Method) :
    freeOf [' ', '\n', '\r'] (Method.repr m) = true := by
  cases m <;> decide

theorem method_repr_not_http (m : Method) : startsWithHTTP (Method.repr m) = false := by
  cases m <;> rfl

theorem version_fromStr_repr (v : Version) : Version.fromStr (Version.repr v) = some v := by
  cases v <;> rfl

theorem version_repr_freeOf (v : Version) :
    freeOf [' ', '\n', '\r'] (Version.repr v) = true := by
  cases v <;> decide

theorem version_repr_http (v : Version) : startsWithHTTP (Version.repr v) = true := by
  cases v <;> rfl

theorem natToStr_freeOf (n : Nat) :
    freeOf [' ', '\n', '\r', ':'] (natToStr n) = true := by
  refine forall_freeOf fun c hc hmem => ?_
  have h := natToStr_digits n c hc
  simp only [List.mem_cons, List.not_mem_nil, or_false] at hmem
  rcases hmem with hm | hm | hm | hm <;> exact digit_ne h (by decide) hm

theorem startLine_roundtrip {sl : StartLine} (h : validStartLine sl = true) :
    StartLine.parse sl.display = some sl := by
  cases sl with
  | request r =>
    obtain ⟨m, target, ver⟩ := r
    simp only [validStartLine] at h
    have htgt : ∀ x ∈ target, x ≠ ' ' := freeOf_ne h (by simp)
    have hm : ∀ x ∈ Method.repr m, x ≠ ' ' := freeOf_ne (method_repr_freeOf m) (by simp)
    have hv : ∀ x ∈ Version.repr ver, x ≠ ' ' := freeOf_ne (version_repr_freeOf ver) (by simp)
    have hsplit : splitAtChar ' '
        (StartLine.display (.request ⟨m, target, ver⟩)) =
        [Method.repr m, target, Version.repr ver] := by
      simp only [StartLine.display, List.append_assoc, List.cons_append]
      rw [splitAtChar_append _ hm, splitAtChar_append _ htgt, splitAtChar_no_sep hv]
    simp [StartLine.parse, hsplit, method_repr_not_http m, method_fromStr_repr m,
      version_fromStr_repr ver]
  | response r =>
    obtain ⟨ver, st, reason⟩ := r
    simp only [validStartLine, Bool.and_eq_true, decide_eq_true_eq] at h
    obtain ⟨hst, hreason⟩ := h
    have hnum : ∀ x ∈ natToStr st, x ≠ ' ' := freeOf_ne (natToStr_freeOf st) (by simp)
    have hv : ∀ x ∈ Version.repr ver, x ≠ ' ' := freeOf_ne (version_repr_freeOf ver) (by simp)
    cases reason with
    | some s =>
      have hs : ∀ x ∈ s, x ≠ ' ' := freeOf_ne hreason (by simp)
      have hsplit : splitAtChar ' '
          (StartLine.display (.response ⟨ver, st, some s⟩)) =
          [Version.repr ver, natToStr st, s] := by
        simp only [StartLine.display, List.append_assoc, List.cons_append]
        rw [splitAtChar_append _ hv, splitAtChar_append _ hnum, splitAtChar_no_sep hs]
      simp [StartLine.parse, hsplit, version_repr_http ver, version_fromStr_repr ver,
        parseU16_natToStr hst, StartLine.mkResponse, Option.orElse]
    | none =>
      have hsplit : splitAtChar ' '
          (StartLine.display (.response ⟨ver, st, none⟩)) =
          [Version.repr ver, natToStr st] := by
        simp only [StartLine.display, List.append_assoc, List.cons_append, List.append_nil]
        rw [splitAtChar_append _ hv, splitAtChar_no_sep hnum]
      rw [Option.isNone_iff_eq_none] at hreason
      simp [StartLine.parse, hsplit, version_repr_http ver, version_fromStr_repr ver,
        parseU16_natToStr hst, StartLine.mkResponse, Option.orElse, hreason]

theorem startLine_display_freeOf {sl : StartLine} (h : validStartLine sl = true) :
    freeOf ['\n', '\r'] sl.display = true := by
  have hsub : ∀ c ∈ (['\n', '\r'] : List Char), c ∈ ([' ', '\n', '\r'] : List Char) := by
    decide
  cases sl with
  | request r =>
    obtain ⟨m, target, ver⟩ := r
    simp only [validStartLine] at h
    simp [StartLine.display, freeOf_append, freeOf_cons,
      freeOf_weaken hsub (method_repr_freeOf m),
      freeOf_weaken hsub (version_repr_freeOf ver), freeOf_weaken hsub h]
  | response r =>
    obtain ⟨ver, st, reason⟩ := r
    simp only [validStartLine, Bool.and_eq_true, decide_eq_true_eq] at h
    obtain ⟨hst, hreason⟩ := h
    have hnumsub : ∀ c ∈ (['\n', '\r'] : List Char),
        c ∈ ([' ', '\n', '\r', ':'] : List Char) := by decide
    cases reason with
    | some s =>
      simp [StartLine.display, freeOf_append, freeOf_cons,
        freeOf_weaken hsub (version_repr_freeOf ver),
        freeOf_weaken hnumsub (natToStr_freeOf st), freeOf_weaken hsub hreason]
    | none =>
      simp [StartLine.display, freeOf_append, freeOf_cons,
        freeOf_weaken hsub (version_repr_freeOf ver),
        freeOf_weaken hnumsub (natToStr_freeOf st)]

/-! ## Buffer serialize/parse round trip -/

theorem split_joinlines {L : List Str} (T : Str)
    (h : ∀ l ∈ L, ∀ x ∈ l, x ≠ '\n') :
    splitAtChar '\n' ((L.map (fun l => l ++ ['\n'])).flatten ++ T) =
      L ++ splitAtChar '\n' T := by
  induction L with
  | nil => simp
  | cons l rest ih =>
    have hl : ∀ x ∈ l, x ≠ '\n' := h l (List.mem_cons_self l rest)
    have hrest : ∀ l2 ∈ rest, ∀ x ∈ l2, x ≠ '\n' :=
      fun l2 hl2 => h l2 (List.mem_cons_of_mem l hl2)
    simp only [List.map_cons, List.flatten_cons, List.append_assoc, List.cons_append,
      List.nil_append]
    rw [splitAtChar_append _ hl, ih hrest]

theorem bodyLinesOf_all_ne {parts : List Str} (h : ∀ l ∈ parts, l ≠ []) :
    bodyLinesOf parts = parts := by
  induction parts with
  | nil => rfl
  | cons l rest ih =>
    have hl := h l (by simp)
    simp [bodyLinesOf, hl, ih (fun x hx => h x (by simp [hx]))]

theorem collectSections_headers {H : List Str} (B : List Str)
    (h : ∀ l ∈ H, l ≠ []) :
    collectSections (H ++ [] :: B) = (H, bodyLinesOf B) := by
  induction H with
  | nil => simp [collectSections]
  | cons l rest ih =>
    have hl := h l (by simp)
    simp [collectSections, hl, ih (fun x hx => h x (by simp [hx]))]

theorem collectSections_no_blank {H : List Str} (h : ∀ l ∈ H, l ≠ []) :
    collectSections H = (H, []) := by
  induction H with
  | nil => rfl
  | cons l rest ih =>
    have hl := h l (by simp)
    simp [collectSections, hl, ih (fun x hx => h x (by simp [hx]))]

theorem parseHeaderLine_roundtrip {k v : Str} (h : validHeaderPair (k, v) = true) :
    parseHeaderLine (k ++ ':' :: ' ' :: v) = some (k, v) := by
  simp only [validHeaderPair, Bool.and_eq_true, beq_iff_eq] at h
  obtain ⟨⟨hk, _⟩, htrim⟩ := h
  have hkc : ∀ x ∈ k, x ≠ ':' := freeOf_ne hk (by simp)
  simp only [parseHeaderLine]
  rw [splitOnceChar_append (' ' :: v) hkc]
  simp [trimStr_cons_space htrim]

theorem parseHeaderLines_roundtrip {hs : List (Str × Str)}
    (h : ∀ p ∈ hs, validHeaderPair p = true) :
    parseHeaderLines (hs.map (fun p => p.1 ++ ':' :: ' ' :: p.2)) = some hs := by
  induction hs with
  | nil => rfl
  | cons p rest ih =>
    obtain ⟨k, v⟩ := p
    have hp := h (k, v) (List.mem_cons_self _ _)
    have hrest : ∀ p2 ∈ rest, validHeaderPair p2 = true :=
      fun p2 hp2 => h p2 (List.mem_cons_of_mem _ hp2)
    simp only [List.map_cons, parseHeaderLines, parseHeaderLine_roundtrip hp, ih hrest]
    rfl

theorem setHeaderList_self {k v : Str} {hs : List (Str × Str)}
    (h : (hs.find? (fun p => eqIgnoreAsciiCase p.1 k)).map (·.2) = some v) :
    setHeaderList k v hs = hs := by
  induction hs with
  | nil => simp at h
  | cons p rest ih =>
    obtain ⟨hk, hv⟩ := p
    by_cases hc : eqIgnoreAsciiCase hk k = true
    · rw [List.find?_cons_of_pos _ (by simpa using hc)] at h
      simp only [Option.map] at h
      rw [Option.some_inj] at h
      simp [setHeaderList, hc, h]
    · rw [List.find?_cons_of_neg _ (by simpa using hc)] at h
      simp [setHeaderList, hc, ih h]

theorem headerLine_free {p : Str × Str} (h : validHeaderPair p = true) :
    ∀ x ∈ p.1 ++ ':' :: ' ' :: p.2, x ≠ '\n' ∧ x ≠ '\r' := by
  obtain ⟨k, v⟩ := p
  simp only [validHeaderPair, Bool.and_eq_true] at h
  obtain ⟨⟨hk, hv⟩, _⟩ := h
  intro x hx
  simp only [List.mem_append, List.mem_cons] at hx
  rcases hx with hx | hx | hx | hx
  · exact ⟨freeOf_ne hk (by simp) x hx, freeOf_ne hk (by simp) x hx⟩
  · subst hx; exact ⟨by decide, by decide⟩
  · subst hx; exact ⟨by decide, by decide⟩
  · exact ⟨freeOf_ne hv (by simp) x hx, freeOf_ne hv (by simp) x hx⟩

theorem splitAtChar_mem {sep : Char} {s : Str} :
    ∀ l ∈ splitAtChar sep s, ∀ x ∈ l, x ∈ s := by
  induction s with
  | nil =>
    intro l hl x hx
    simp [splitAtChar] at hl
    subst hl
    simp at hx
  | cons c rest ih =>
    intro l hl x hx
    simp only [splitAtChar] at hl
    split at hl
    · rcases List.mem_cons.mp hl with hl | hl
      · subst hl; simp at hx
      · exact List.mem_cons_of_mem _ (ih l hl x hx)
    · rename_i hc
      cases hr : splitAtChar sep rest with
      | nil => exact absurd hr (splitAtChar_ne_nil sep rest)
      | cons hd tl =>
        rw [hr] at hl
        rcases List.mem_cons.mp hl with hl | hl
        · subst hl
          rcases List.mem_cons.mp hx with hx | hx
          · simp [hx]
          · exact List.mem_cons_of_mem _ (ih hd (by simp [hr]) x hx)
        · exact List.mem_cons_of_mem _ (ih l (by simp [hr, hl]) x hx)

theorem buffer_reassemble (sl : StartLine) {headers : List (Str × Str)} {body : Str}
    (hcl : (headers.find? (fun p => eqIgnoreAsciiCase p.1 contentLengthKey)).map (·.2) =
      some (natToStr (utf8Len body))) :
    ((Buffer.default.withStartLine sl).withHeaders headers).withBody body =
      ⟨sl, headers, body⟩ := by
  simp only [Buffer.default, Buffer.withStartLine, Buffer.withHeaders, Buffer.withBody,
    Buffer.appendBody, Buffer.setHeader, List.nil_append]
  rw [setHeaderList_self hcl]

theorem map_stripCR_id {L : List Str} (h : ∀ l ∈ L, ∀ x ∈ l, x ≠ '\r') :
    L.map stripCR = L := by
  induction L with
  | nil => rfl
  | cons l rest ih =>
    rw [List.map_cons, stripCR_free (h l (List.mem_cons_self l rest)),
      ih (fun l2 hl2 => h l2 (List.mem_cons_of_mem l hl2))]

theorem buffer_roundtrip {b : Buffer} (h : validBuffer b = true) :
    Buffer.parse b.writeTo = some b := by
  obtain ⟨sl, headers, body⟩ := b
  simp only [validBuffer, Bool.and_eq_true] at h
  obtain ⟨⟨⟨hsl, hheaders⟩, hcl⟩, hbody⟩ := h
  rw [List.all_eq_true] at hheaders
  rw [beq_iff_eq] at hcl
  -- the header text lines
  set H : List Str := headers.map (fun p => p.1 ++ ':' :: ' ' :: p.2) with hH
  have hheaders2 : ∀ p ∈ headers, validHeaderPair p = true := by
    intro p hp
    simpa using hheaders p hp
  have hHfree : ∀ l ∈ H, ∀ x ∈ l, x ≠ '\n' := by
    intro l hl x hx
    rw [hH] at hl
    simp only [List.mem_map] at hl
    obtain ⟨p, hp, rfl⟩ := hl
    exact (headerLine_free (hheaders2 p hp) x hx).1
  have hHne : ∀ l ∈ H, l ≠ [] := by
    intro l hl
    rw [hH] at hl
    simp only [List.mem_map] at hl
    obtain ⟨p, hp, rfl⟩ := hl
    simp
  have hHcr : ∀ l ∈ H, ∀ x ∈ l, x ≠ '\r' := by
    intro l hl x hx
    rw [hH] at hl
    simp only [List.mem_map] at hl
    obtain ⟨p, hp, rfl⟩ := hl
    exact (headerLine_free (hheaders2 p hp) x hx).2
  have hslnl : ∀ x ∈ sl.display, x ≠ '\n' :=
    freeOf_ne (startLine_display_freeOf hsl) (by simp)
  have hslcr : ∀ x ∈ sl.display, x ≠ '\r' :=
    freeOf_ne (startLine_display_freeOf hsl) (by simp)
  have hhdr : parseHeaderLines H = some headers := by
    rw [hH]
    exact parseHeaderLines_roundtrip hheaders2
  simp only [validBody, Bool.and_eq_true, Bool.or_eq_true, beq_iff_eq] at hbody
  obtain ⟨hbcr, hblank⟩ := hbody
  simp only [Buffer.header] at hcl
  have hreassemble := buffer_reassemble sl hcl
  have hmapeq : headers.map (fun p => p.1 ++ ':' :: ' ' :: p.2 ++ ['\n']) =
      H.map (fun l => l ++ ['\n']) := by
    rw [hH, List.map_map]
    apply List.map_congr_left
    intro p _
    simp [Function.comp, List.append_assoc]
  have hHstrip : H.map stripCR = H := map_stripCR_id hHcr
  by_cases hbe : body = []
  · -- empty body: no blank line, no body section
    subst hbe
    have hw : Buffer.writeTo ⟨sl, headers, []⟩ =
        sl.display ++ '\n' :: ((H.map (fun l => l ++ ['\n'])).flatten ++ []) := by
      simp only [Buffer.writeTo]
      rw [hmapeq]
      simp
    have hsplit : splitAtChar '\n' (Buffer.writeTo ⟨sl, headers, []⟩) =
        sl.display :: (H ++ [[]]) := by
      rw [hw, splitAtChar_append _ hslnl, split_joinlines _ hHfree]
      rfl
    have hlines : rustLines (Buffer.writeTo ⟨sl, headers, []⟩) = sl.display :: H := by
      simp only [rustLines, hsplit]
      rw [show sl.display :: (H ++ [([] : Str)]) =
        (sl.display :: H) ++ [([] : Str)] by simp]
      rw [List.getLast?_concat]
      rw [if_pos rfl]
      rw [List.dropLast_concat]
      rw [List.map_cons, stripCR_free hslcr, hHstrip]
    simp only [Buffer.parse, hlines, startLine_roundtrip hsl,
      collectSections_no_blank hHne, hhdr]
    exact congrArg some hreassemble
  · -- non-empty body
    have hblank2 : ∀ l ∈ splitAtChar '\n' body, l ≠ [] := by
      rcases hblank with hblank | hblank
      · exact absurd hblank hbe
      · rw [List.all_eq_true] at hblank
        intro l hl
        simpa using hblank l hl
    have hbodycr : ∀ l ∈ splitAtChar '\n' body, ∀ x ∈ l, x ≠ '\r' := by
      intro l hl x hx
      exact freeOf_ne hbcr (by simp) x (splitAtChar_mem l hl x hx)
    have hw : Buffer.writeTo ⟨sl, headers, body⟩ =
        sl.display ++ '\n' :: ((H.map (fun l => l ++ ['\n'])).flatten ++ '\n' :: body) := by
      simp only [Buffer.writeTo]
      rw [hmapeq]
      simp [if_neg hbe]
    have hsplit : splitAtChar '\n' (Buffer.writeTo ⟨sl, headers, body⟩) =
        sl.display :: (H ++ [] :: splitAtChar '\n' body) := by
      rw [hw, splitAtChar_append _ hslnl, split_joinlines _ hHfree]
      rfl
    have hlines : rustLines (Buffer.writeTo ⟨sl, headers, body⟩) =
        sl.display :: (H ++ [] :: splitAtChar '\n' body) := by
      simp only [rustLines, hsplit]
      have hlast : (sl.display :: (H ++ [] :: splitAtChar '\n' body)).getLast? =
          (splitAtChar '\n' body).getLast? := by
        rw [show sl.display :: (H ++ [] :: splitAtChar '\n' body) =
          (sl.display :: H ++ [([] : Str)]) ++ splitAtChar '\n' body by simp]
        exact List.getLast?_append_of_ne_nil _ (splitAtChar_ne_nil '\n' body)
      have hnotblank : ¬ ((sl.display ::
          (H ++ [] :: splitAtChar '\n' body)).getLast? = some ([] : Str)) := by
        rw [hlast]
        intro hcontra
        exact hblank2 [] (List.mem_of_mem_getLast? hcontra) rfl
      rw [if_neg hnotblank]
      rw [List.map_cons, stripCR_free hslcr]
      congr 1
      rw [List.map_append, List.map_cons, hHstrip]
      congr 2
      exact map_stripCR_id hbodycr
    simp only [Buffer.parse, hlines, startLine_roundtrip hsl,
      collectSections_headers _ hHne, hhdr, bodyLinesOf_all_ne hblank2]
    have hfin : ((Buffer.default.withStartLine sl).withHeaders headers).withBody
        (List.intercalate ['\n'] (splitAtChar '\n' body)) =
        Buffer.mk sl headers body := by
      rw [intercalate_splitAtChar]
      exact hreassemble
    exact congrArg some hfin

/-! ## Store lemmas -/

theorem looseEq_iff {a b : Value} : looseEq a b = true ↔ a.display = b.display := by
  simp [looseEq]

theorem looseEq_refl (a : Value) : looseEq a a = true := by
  simp [looseEq]

theorem storeFind_append_single {identifier : Str} {items : List Record} {obj : Record}
    {k : Str} {v : Value} (hid : idField identifier obj = some (k, v)) {q : Value}
    (hq : looseEq v q = true) (hnone : storeFind identifier items q = none) :
    storeFind identifier (items ++ [obj]) q = some obj := by
  simp only [storeFind] at hnone ⊢
  rw [List.find?_append, hnone]
  simp [List.find?, hid, hq]

theorem storeFind_none_iff {identifier : Str} {items : List Record} {q : Value} :
    storeFind identifier items q = none ↔
      ∀ item ∈ items, ∀ kv, idField identifier item = some kv → looseEq kv.2 q = false := by
  simp only [storeFind, List.find?_eq_none]
  constructor
  · intro h item hitem kv hkv
    have := h item hitem
    rw [hkv] at this
    simpa using this
  · intro h item hitem
    cases hkv : idField identifier item with
    | none => simp
    | some kv => simpa using h item hitem kv hkv

/-! ## Router lemmas -/

theorem methodLookup_cons_self {m : Method} {h0 : Handler} {l : List (Method × Handler)} :
    methodLookup m ((m, h0) :: l) = some h0 := by
  simp [methodLookup, List.find?]

theorem methodLookup_cons_ne {m m0 : Method} {h0 : Handler} {l : List (Method × Handler)}
    (h : ¬ (m0 = m)) : methodLookup m ((m0, h0) :: l) = methodLookup m l := by
  simp [methodLookup, List.find?, h]

theorem methodLookup_insertMeth (m m' : Method) (hd : Handler)
    (l : List (Method × Handler)) :
    methodLookup m (insertMeth m' hd l) =
      if m = m' then some hd else methodLookup m l := by
  induction l with
  | nil =>
    simp only [insertMeth]
    by_cases hm : m = m'
    · subst hm
      rw [if_pos rfl]
      exact methodLookup_cons_self
    · rw [if_neg hm, methodLookup_cons_ne (fun h => hm h.symm)]
  | cons p rest ih =>
    obtain ⟨m0, h0⟩ := p
    simp only [insertMeth]
    by_cases h1 : m0 = m'
    · subst h1
      rw [if_pos rfl]
      by_cases hm : m = m0
      · subst hm
        rw [if_pos rfl, methodLookup_cons_self]
      · rw [if_neg hm, methodLookup_cons_ne (fun h => hm h.symm),
          methodLookup_cons_ne (fun h => hm h.symm)]
    · rw [if_neg h1]
      by_cases hm : m = m0
      · subst hm
        have hne : ¬ (m = m') := h1
        rw [methodLookup_cons_self, methodLookup_cons_self, if_neg hne]
      · rw [methodLookup_cons_ne (fun h => hm h.symm),
          methodLookup_cons_ne (fun h => hm h.symm), ih]

theorem insertMethods_cons (m' : Method) (rest : List Method) (hd : Handler)
    (l : List (Method × Handler)) :
    insertMethods (m' :: rest) hd l = insertMethods rest hd (insertMeth m' hd l) := rfl

theorem methodLookup_insertMethods_not_mem {m : Method} {ms : List Method} (hd : Handler)
    (l : List (Method × Handler)) (hm : m ∉ ms) :
    methodLookup m (insertMethods ms hd l) = methodLookup m l := by
  induction ms generalizing l with
  | nil => rfl
  | cons m' rest ih =>
    have hne : m ≠ m' := fun h => hm (h ▸ List.mem_cons_self m' rest)
    have hrest : m ∉ rest := fun h => hm (List.mem_cons_of_mem m' h)
    rw [insertMethods_cons, ih _ hrest, methodLookup_insertMeth, if_neg hne]

theorem methodLookup_insertMethods_mem {m : Method} {ms : List Method} (hd : Handler)
    (l : List (Method × Handler)) (hm : m ∈ ms) :
    methodLookup m (insertMethods ms hd l) = some hd := by
  induction ms generalizing l with
  | nil => simp at hm
  | cons m' rest ih =>
    rw [insertMethods_cons]
    by_cases hr : m ∈ rest
    · exact ih _ hr
    · have hmm : m = m' := by
        rcases List.mem_cons.mp hm with h | h
        · exact h
        · exact absurd h hr
      subst hmm
      rw [methodLookup_insertMethods_not_mem hd _ hr, methodLookup_insertMeth, if_pos rfl]

theorem routerHandler_set {r : Router} {ms : List Method} {e : Str} {hd : Handler}
    {m : Method} (hm : m ∈ ms) :
    routerHandler (routerSet r ms e hd) m e = some hd := by
  induction r with
  | nil =>
    simp only [routerSet, routerSetList, routerHandler, List.find?, beq_self_eq_true]
    exact methodLookup_insertMethods_mem hd [] hm
  | cons p rest ih =>
    obtain ⟨e0, ms0⟩ := p
    simp only [routerSet, routerSetList] at ih ⊢
    by_cases he : e0 = e
    · subst he
      simp only [if_pos rfl, routerHandler, List.find?, beq_self_eq_true]
      exact methodLookup_insertMethods_mem hd ms0 hm
    · rw [if_neg he]
      simp only [routerHandler, List.find?] at ih ⊢
      have : (e0 == e) = false := by simp [he]
      simp only [this]
      exact ih

/-! ## Header-casing lemmas -/

theorem eqIC_iff {a b : Str} :
    eqIgnoreAsciiCase a b = true ↔ a.map asciiLower = b.map asciiLower := by
  simp [eqIgnoreAsciiCase]

theorem eqIC_refl (a : Str) : eqIgnoreAsciiCase a a = true := by
  simp [eqIgnoreAsciiCase]

theorem eqIC_symm {a b : Str} (h : eqIgnoreAsciiCase a b = true) :
    eqIgnoreAsciiCase b a = true := by
  rw [eqIC_iff] at h ⊢
  exact h.symm

theorem eqIC_congr {a k k' : Str} (hk : eqIgnoreAsciiCase k' k = true) :
    eqIgnoreAsciiCase a k = eqIgnoreAsciiCase a k' := by
  rw [eqIC_iff] at hk
  simp [eqIgnoreAsciiCase, hk]

theorem setHeader_once {k k' v : Str} (hk : eqIgnoreAsciiCase k' k = true)
    {hs : List (Str × Str)} (hle : countMatches k hs ≤ 1) :
    countMatches k (setHeaderList k' v hs) = 1 ∧
      ((setHeaderList k' v hs).find? (fun p => eqIgnoreAsciiCase p.1 k)).map (·.2) =
        some v := by
  induction hs with
  | nil =>
    refine ⟨?_, ?_⟩
    · simp [setHeaderList, countMatches, List.filter, hk]
    · simp [setHeaderList, List.find?, hk]
  | cons p rest ih =>
    obtain ⟨hk0, hv0⟩ := p
    by_cases hc : eqIgnoreAsciiCase hk0 k' = true
    · have hck : eqIgnoreAsciiCase hk0 k = true := by
        rw [eqIC_iff] at hc hk ⊢
        rw [hc, hk]
      have hzero : (rest.filter (fun p => eqIgnoreAsciiCase p.1 k)).length = 0 := by
        simp only [countMatches, List.filter, hck, List.length_cons] at hle
        omega
      refine ⟨?_, ?_⟩
      · simp only [setHeaderList, if_pos hc, countMatches, List.filter, hck,
          List.length_cons, hzero]
      · simp [setHeaderList, if_pos hc, List.find?, hck]
    · have hcb : eqIgnoreAsciiCase hk0 k' = false := by simpa using hc
      have hck : eqIgnoreAsciiCase hk0 k = false := by
        rw [eqIC_congr hk]
        exact hcb
      have hle2 : countMatches k rest ≤ 1 := by
        simpa only [countMatches, List.filter, hck] using hle
      obtain ⟨ih1, ih2⟩ := ih hle2
      refine ⟨?_, ?_⟩
      · simpa only [setHeaderList, hcb, Bool.false_eq_true, if_false, countMatches,
          List.filter, hck] using ih1
      · simpa only [setHeaderList, hcb, Bool.false_eq_true, if_false, List.find?, hck]
          using ih2

/-! ## Response-shape helpers -/

theorem status?_withBody (b : Buffer) (v : Str) : (b.withBody v).status? = b.status? := by
  cases b
  rfl

theorem status?_withHeader (b : Buffer) (k v : Str) :
    (b.withHeader k v).status? = b.status? := by
  cases b
  rfl

theorem body_withBody (b : Buffer) (v : Str) : (b.withBody v).body = v := by
  cases b
  rfl

theorem msgs_distinct (identifier : Str) :
    msgKeyNoValue identifier ≠ msgKeyAbsent identifier := by
  simp only [msgKeyNoValue, msgKeyAbsent]
  intro h
  rw [List.append_assoc, List.append_assoc] at h
  have h2 := List.append_cancel_left (List.append_cancel_left h)
  exact absurd h2 (by decide)

/-! ## Claim theorems -/

/-- C1 (counterexample): POSTing a record with no identifier field is not
answered with 201 — at the concrete record `{"name": "Joe"}` on an `id`
store, `create_entity` propagates the 400 Bad Request error of
`Store::create` and leaves the record list unchanged, so the claim's
"appends the record, persists, and responds 201" is false on the code. -/
theorem c1_counterexample :
    createEntity "id".data [] [("name".data, Value.string "Joe".data)] =
      (.error (missingIdError "id".data), []) := rfl

/-- C1 (amended): for every POST whose decoded record has no field whose
name case-insensitively matches the store's identifier field, the handler
rejects the request: `Store::create` fails with the 400 Bad Request API
error `missing <identifier> field in object`, the record is not appended
and nothing is persisted, and no 201 is produced. -/
theorem c1_post_without_identifier_rejected (identifier : Str) (items : List Record)
    (newData : Record) (h : idField identifier newData = none) :
    createEntity identifier items newData =
      (.error (missingIdError identifier), items) := by
  simp [createEntity, storeCreate, h]

/-- C1 witness: the amended theorem applied at the concrete record. -/
theorem c1_witness :
    idField "id".data [("name".data, Value.string "Joe".data)] = none ∧
      createEntity "id".data [] [("name".data, Value.string "Joe".data)] =
        (.error (missingIdError "id".data), []) :=
  ⟨rfl, c1_post_without_identifier_rejected _ _ _ rfl⟩

/-- C2 (code divergence): a PUT, PATCH or DELETE dispatched to the
store-backed handler reaches a `todo!()` and panics the serving thread,
instead of returning an explicit error result as the claim (and spec §4.4)
requires. -/
theorem c2_put_patch_delete_panics (identifier : Str) (items : List Record)
    (req : Buffer) (decoded : Option Record) (rs : RequestStart)
    (hline : req.startLine = .request rs)
    (hm : rs.method = .put ∨ rs.method = .patch ∨ rs.method = .delete) :
    ∃ msg, storeRouteHandle identifier items req decoded = .panics msg := by
  rcases hm with hm | hm | hm
  · exact ⟨"not yet implemented: StoreRouteHandler PUT method".data,
      by simp [storeRouteHandle, hline, hm]⟩
  · exact ⟨"not yet implemented: StoreRouteHandler PATCH method".data,
      by simp [storeRouteHandle, hline, hm]⟩
  · exact ⟨"not yet implemented: StoreRouteHandler DELETE method".data,
      by simp [storeRouteHandle, hline, hm]⟩

/-- C2 witness: a concrete PUT request panics the handler. -/
theorem c2_witness :
    ∃ msg, storeRouteHandle "id".data []
      (Buffer.mk (.request ⟨.put, "/users".data, .v1_1⟩) [] []) none = .panics msg :=
  c2_put_patch_delete_panics "id".data [] _ none ⟨.put, "/users".data, .v1_1⟩ rfl
    (Or.inl rfl)

/-- C3 (code divergence): `path()` returns the substring before `?` when the
target has a query, but returns `None` — not the full target — when the
target has no `?`; `dispatch` then falls back to the substitute endpoint
`/`, so a request for `/users` is looked up at `/`. -/
theorem c3_path_eval :
    requestPath "/users?id=1".data = some "/users".data ∧
      requestPath "/users".data = none ∧
      dispatchEndpoint ⟨.get, "/users".data, .v1_1⟩ = "/".data :=
  ⟨rfl, rfl, rfl⟩

/-- C4: for every valid `Buffer` with a text-safe body, parsing the
serialization yields the same buffer: `parse(serialize(b)) = b`. -/
theorem c4_roundtrip (b : Buffer) (h : validBuffer b = true) :
    Buffer.parse b.writeTo = some b :=
  buffer_roundtrip h

/-- C4 witness: the round trip at the Scenario A response. -/
theorem c4_witness :
    validBuffer scenarioABuffer = true ∧
      Buffer.parse scenarioABuffer.writeTo = some scenarioABuffer :=
  ⟨by decide, c4_roundtrip scenarioABuffer (by decide)⟩

/-- C5: a successful `Store::create` makes `Store::find` on the record's
identifier value return that record; a second `create` with a loosely-equal
identifier fails with the 409 Conflict error and leaves the record list
unchanged; and the at-most-one-loose-identifier invariant is preserved. -/
theorem c5_create_find_conflict (identifier : Str) (items : List Record)
    (obj : Record) (k : Str) (v : Value) (n : Nat) (items2 : List Record)
    (hid : idField identifier obj = some (k, v))
    (hcreate : storeCreate identifier items obj = (.ok n, items2))
    (hu : UniqueIds identifier items) :
    storeFind identifier items2 v = some obj ∧
      (∀ obj2 k2 v2, idField identifier obj2 = some (k2, v2) → looseEq v2 v = true →
        storeCreate identifier items2 obj2 =
          (.error (conflictError identifier v2), items2)) ∧
      UniqueIds identifier items2 := by
  simp only [storeCreate, hid] at hcreate
  cases hfind : storeFind identifier items v with
  | some w =>
    rw [hfind] at hcreate
    exact absurd hcreate (by simp)
  | none =>
    rw [hfind] at hcreate
    simp only [Prod.mk.injEq] at hcreate
    obtain ⟨-, hitems⟩ := hcreate
    subst hitems
    refine ⟨storeFind_append_single hid (looseEq_refl v) hfind, ?_, ?_⟩
    · intro obj2 k2 v2 hid2 hloose
      have hfind2 : storeFind identifier (items ++ [obj]) v2 = some obj := by
        refine storeFind_append_single hid ?_ ?_
        · rw [looseEq_iff] at hloose ⊢
          exact hloose.symm
        · rw [storeFind_none_iff] at hfind ⊢
          intro item hitem kv hkv
          have hfalse := hfind item hitem kv hkv
          cases hlkv : looseEq kv.2 v2 with
          | false => rfl
          | true =>
            rw [looseEq_iff] at hlkv hloose
            have : looseEq kv.2 v = true := looseEq_iff.mpr (hlkv.trans hloose)
            rw [this] at hfalse
            exact absurd hfalse (by simp)
      simp [storeCreate, hid2, hfind2]
    · simp only [UniqueIds] at hu ⊢
      rw [List.pairwise_append]
      refine ⟨hu, by simp, ?_⟩
      intro a ha b hb va vb hva hvb
      simp only [List.mem_singleton] at hb
      subst hb
      simp only [recId?, hid, Option.map_some', Option.some.injEq] at hvb
      obtain ⟨kv, hkv, hkv2⟩ := Option.map_eq_some'.mp hva
      rw [storeFind_none_iff] at hfind
      have := hfind a ha kv hkv
      rw [hkv2] at this
      rw [← hvb]
      exact this

/-- C5 witness: the theorem at a concrete store: create `{id: 42}` into an
empty `id` store, find it back, and watch a loosely-equal `{id: "42"}`
creation fail with Conflict. -/
theorem c5_witness :
    storeFind "id".data [[("id".data, Value.unsigned 42)]] (Value.unsigned 42) =
        some [("id".data, Value.unsigned 42)] ∧
      storeCreate "id".data [[("id".data, Value.unsigned 42)]]
          [("id".data, Value.string "42".data)] =
        (.error (conflictError "id".data (Value.string "42".data)),
          [[("id".data, Value.unsigned 42)]]) := by
  have h := c5_create_find_conflict "id".data [] [("id".data, Value.unsigned 42)]
    "id".data (Value.unsigned 42) 0 [[("id".data, Value.unsigned 42)]] rfl rfl
    (by simp [UniqueIds])
  exact ⟨h.1, h.2.1 [("id".data, Value.string "42".data)] "id".data
    (Value.string "42".data) rfl (by decide)⟩

/-- C6: dispatching a request whose endpoint (the dispatch key
`path().unwrap_or("/")`) has no registered handler for its method returns a
404 response with no body; after `Router::set`, dispatch invokes exactly
the handler most recently registered for the (endpoint, method) pair —
later registration replaces earlier. -/
theorem c6_dispatch (r : Router) (req res : Buffer) (rs : RequestStart)
    (hline : req.startLine = .request rs) :
    (routerHandler r rs.method (dispatchEndpoint rs) = none →
      routerDispatch r req res = some (.ok (Buffer.default.withStatusCode 404)) ∧
        (Buffer.default.withStatusCode 404).body = [] ∧
        (Buffer.default.withStatusCode 404).status? = some 404) ∧
    (∀ ms e hd, rs.method ∈ ms → dispatchEndpoint rs = e →
      routerDispatch (routerSet r ms e hd) req res = some (hd req res)) := by
  constructor
  · intro hmiss
    refine ⟨?_, rfl, rfl⟩
    simp [routerDispatch, hline, hmiss]
  · intro ms e hd hm he
    subst he
    simp [routerDispatch, hline, routerHandler_set hm]

/-- C6 witness: an empty router 404s a `GET /u?x` request; registering two
handlers in turn for `(GET, /u)` dispatches to the second. -/
theorem c6_witness :
    routerDispatch [] (Buffer.mk (.request ⟨.get, "/u?x".data, .v1_1⟩) [] [])
        Buffer.default = some (.ok (Buffer.default.withStatusCode 404)) ∧
      routerDispatch
          (routerSet (routerSet [] [.get] "/u".data (fun _ _ => .error ⟨.unknown, none⟩))
            [.get] "/u".data (fun _ _ => .ok (Buffer.default.withStatusCode 201)))
          (Buffer.mk (.request ⟨.get, "/u?x".data, .v1_1⟩) [] []) Buffer.default =
        some (.ok (Buffer.default.withStatusCode 201)) := by
  have h1 := c6_dispatch [] (Buffer.mk (.request ⟨.get, "/u?x".data, .v1_1⟩) [] [])
    Buffer.default ⟨.get, "/u?x".data, .v1_1⟩ rfl
  have h2 := c6_dispatch
    (routerSet [] [.get] "/u".data (fun _ _ => .error ⟨.unknown, none⟩))
    (Buffer.mk (.request ⟨.get, "/u?x".data, .v1_1⟩) [] [])
    Buffer.default ⟨.get, "/u?x".data, .v1_1⟩ rfl
  exact ⟨(h1.1 rfl).1,
    h2.2 [.get] "/u".data (fun _ _ => .ok (Buffer.default.withStatusCode 201))
      (List.mem_singleton.mpr rfl) rfl⟩

/-- C7: outcome table of the store-backed GET: 400 with the key-absent body
when no query key matches the identifier case-insensitively; a distinct 400
when the key is present but valueless; 200 with the record serialized when
some record's identifier is loosely equal to the value; 404 otherwise. -/
theorem c7_get_outcomes (identifier : Str) (items : List Record) (target : Str) :
    (queryParam target identifier = none →
      (loadEntity identifier items target).status? = some 400 ∧
        (loadEntity identifier items target).body = msgKeyAbsent identifier) ∧
    (∀ k, queryParam target identifier = some (k, none) →
      (loadEntity identifier items target).status? = some 400 ∧
        (loadEntity identifier items target).body = msgKeyNoValue identifier ∧
        msgKeyNoValue identifier ≠ msgKeyAbsent identifier) ∧
    (∀ k v obj, queryParam target identifier = some (k, some v) →
      storeFind identifier items (.string v) = some obj →
      (loadEntity identifier items target).status? = some 200 ∧
        (loadEntity identifier items target).body = jsonRecord obj) ∧
    (∀ k v, queryParam target identifier = some (k, some v) →
      storeFind identifier items (.string v) = none →
      (loadEntity identifier items target).status? = some 404) := by
  refine ⟨?_, ?_, ?_, ?_⟩
  · intro h
    simp only [loadEntity, h]
    exact ⟨rfl, body_withBody _ _⟩
  · intro k h
    simp only [loadEntity, h]
    exact ⟨rfl, body_withBody _ _, msgs_distinct identifier⟩
  · intro k v obj h hfind
    simp only [loadEntity, h, hfind]
    exact ⟨rfl, body_withBody _ _⟩
  · intro k v h hfind
    simp only [loadEntity, h, hfind]
    rfl

/-- C7 witness: the theorem at a one-record store: no `id` key → 400;
valueless `id` → 400 with the other body; `id=42` → 200 with the record
serialized; `id=43` → 404. -/
theorem c7_witness :
    (loadEntity "id".data [[("id".data, Value.unsigned 42)]] "/u".data).status? =
        some 400 ∧
      (loadEntity "id".data [[("id".data, Value.unsigned 42)]] "/u?id".data).status? =
        some 400 ∧
      (loadEntity "id".data [[("id".data, Value.unsigned 42)]] "/u?id=42".data).body =
        jsonRecord [("id".data, Value.unsigned 42)] ∧
      (loadEntity "id".data [[("id".data, Value.unsigned 42)]] "/u?id=43".data).status? =
        some 404 := by
  have h1 := c7_get_outcomes "id".data [[("id".data, Value.unsigned 42)]] "/u".data
  have h2 := c7_get_outcomes "id".data [[("id".data, Value.unsigned 42)]] "/u?id".data
  have h3 := c7_get_outcomes "id".data [[("id".data, Value.unsigned 42)]] "/u?id=42".data
  have h4 := c7_get_outcomes "id".data [[("id".data, Value.unsigned 42)]] "/u?id=43".data
  refine ⟨(h1.1 rfl).1, (h2.2.1 "id".data rfl).1, ?_, ?_⟩
  · exact (h3.2.2.1 "id".data "42".data [("id".data, Value.unsigned 42)] rfl rfl).2
  · exact h4.2.2.2 "id".data "43".data rfl rfl

/-- C8 (counterexample): on a buffer that already holds two headers whose
names differ only in casing, two `set_header` calls update only the first
match, leaving two entries whose names case-insensitively coincide — and
here both end up holding the final value — so "exactly one header entry
holding the last value set" fails for that buffer. -/
theorem c8_counterexample :
    (((Buffer.mk (StartLine.mkResponse .v1_1 200 none)
          [("X".data, "1".data), ("x".data, "b".data)] []).setHeader "X".data "a".data
        ).setHeader "x".data "b".data).headers =
        [("X".data, "b".data), ("x".data, "b".data)] ∧
      eqIgnoreAsciiCase "X".data "x".data = true ∧
      countMatches "x".data [("X".data, "b".data), ("x".data, "b".data)] = 2 := by
  exact ⟨by decide, by decide, by decide⟩

/-- C8 (amended): for every Buffer holding at most one header whose name
case-insensitively matches the given name — in particular any buffer whose
headers were only ever mutated through `set_header` — two `set_header`
calls with names differing only in casing leave exactly one matching entry,
and it holds the last value set (the first case-insensitive match is
overwritten in place, or a new entry appended). -/
theorem c8_set_header_twice (b : Buffer) (k k1 k2 v1 v2 : Str)
    (h1 : eqIgnoreAsciiCase k1 k = true) (h2 : eqIgnoreAsciiCase k2 k = true)
    (hle : countMatches k b.headers ≤ 1) :
    countMatches k ((b.setHeader k1 v1).setHeader k2 v2).headers = 1 ∧
      ((b.setHeader k1 v1).setHeader k2 v2).header k = some v2 := by
  obtain ⟨sl, headers, body⟩ := b
  have hle2 : countMatches k headers ≤ 1 := hle
  have s1 := setHeader_once (v := v1) h1 hle2
  have s2 : countMatches k (setHeaderList k2 v2 (setHeaderList k1 v1 headers)) = 1 ∧
      ((setHeaderList k2 v2 (setHeaderList k1 v1 headers)).find?
        (fun p => eqIgnoreAsciiCase p.1 k)).map (·.2) = some v2 :=
    setHeader_once h2 (le_of_eq s1.1)
  exact ⟨s2.1, s2.2⟩

/-- C8 witness: the amended claim at a fresh buffer: `Content-type` then
`CONTENT-TYPE` leave one entry holding the second value. -/
theorem c8_witness :
    countMatches "content-type".data
        (((Buffer.mk (StartLine.mkResponse .v1_1 200 none) [] []).setHeader
            "Content-type".data "a".data).setHeader
          "CONTENT-TYPE".data "b".data).headers = 1 ∧
      (((Buffer.mk (StartLine.mkResponse .v1_1 200 none) [] []).setHeader
          "Content-type".data "a".data).setHeader
        "CONTENT-TYPE".data "b".data).header "content-type".data = some "b".data :=
  c8_set_header_twice (Buffer.mk (StartLine.mkResponse .v1_1 200 none) [] [])
    "content-type".data "Content-type".data "CONTENT-TYPE".data "a".data "b".data
    (by decide) (by decide) (by decide)

/-- C9: converting an `Error` into a `Response` renders the carried status
for an `Api` error and 500 for every other kind, with the message (when
present) as the body. -/
theorem c9_error_to_response (e : ErrorM) :
    (responseFromError e).status? =
        some (match e.kind with
          | .api s => s
          | _ => statusInternalServerError) ∧
      (responseFromError e).body = e.message.getD [] := by
  obtain ⟨kind, msg⟩ := e
  cases msg with
  | none => cases kind <;> exact ⟨rfl, rfl⟩
  | some m => cases kind <;> exact ⟨rfl, rfl⟩

/-- C10: `Store::remove` matches on structural `Value` equality, not loose
textual equality: when no record's identifier field is structurally equal
to the probe, remove returns `None` and leaves the record list unchanged
(even if some identifier is loosely equal, as `Unsigned 42` vs
`String "42"`). -/
theorem c10_remove_structural (identifier : Str) (items : List Record) (id : Value)
    (h : ∀ r ∈ items, structIdMatch identifier id r = false) :
    storeRemove identifier items id = (none, items) := by
  revert h
  induction items with
  | nil =>
    intro h
    rfl
  | cons r rest ih =>
    intro h
    have hr := h r (List.mem_cons_self r rest)
    have hrest : ∀ x ∈ rest, structIdMatch identifier id x = false :=
      fun x hx => h x (List.mem_cons_of_mem r hx)
    have := ih hrest
    simp only [storeRemove, removeFirst, hr, Bool.false_eq_true, if_false] at this ⊢
    simp [this]

/-- C10 witness: removing by `String "42"` from a store holding
`{id: Unsigned 42}` — loosely equal but structurally different — returns
`None` and leaves the record. -/
theorem c10_witness :
    looseEq (Value.unsigned 42) (Value.string "42".data) = true ∧
      Value.beq (Value.unsigned 42) (Value.string "42".data) = false ∧
      storeRemove "id".data [[("id".data, Value.unsigned 42)]]
          (Value.string "42".data) = (none, [[("id".data, Value.unsigned 42)]]) :=
  ⟨by decide, by decide,
    c10_remove_structural "id".data [[("id".data, Value.unsigned 42)]]
      (Value.string "42".data)
      (by
        intro r hr
        simp only [List.mem_singleton] at hr
        subst hr
        rfl)⟩

end Mocker
